import Mathlib

/-!
# ProfileScope — shallow embedding and verification

A Lean 4 model of the data-transformation pipeline of `profilescope.py`:
the pstats text parser (`_extract_hot_functions`), the analyzer
(`_identify_bottlenecks`, `_generate_recommendations`), the JSON report
serialization (`save_report`), the comparator (`compare_reports`), and the
`sys.argv` discipline of `profile`.

Python strings are modelled as `List Char`, Python floats as `ℚ` (the
source only adds, subtracts, multiplies, divides and compares them, so
rational semantics is the exact arithmetic the formulas denote; the float
literal `0.2` is modelled as `1/5`), Python ints as `ℤ`.
-/

namespace ProfileScope

/-- Python strings are modelled as lists of characters. -/
abbrev Str := List Char

/-- Coerce a Lean string literal to the `Str` model. -/
def lit (s : String) : Str := s.data

/-- Whitespace, as used by Python `str.split(None)` on profiler output
(space, tab, newline, carriage return, form feed, vertical tab). -/
def isSpaceC (c : Char) : Bool :=
  c = ' ' || c = '\t' || c = '\n' || c = '\r' || c = '\x0c' || c = '\x0b'

/-- ASCII decimal digit test, as used by Python `str.isdigit` on the
digit strings that occur in pstats output. -/
def isDigitC (c : Char) : Bool := '0' ≤ c && c ≤ '9'

/-- `s` consists of decimal digits and is non-empty (Python `str.isdigit`). -/
def isDigits (s : Str) : Bool := !s.isEmpty && s.all isDigitC

/-- Numeric value of a digit string (most significant digit first). -/
def valDigits (s : Str) : ℕ :=
  s.foldl (fun acc c => acc * 10 + (c.toNat - 48)) 0

/-- Split a character list at every occurrence of `c`
(Python `str.split(sep)` for a one-character separator). -/
def splitOnChar (c : Char) : Str → List Str
  | [] => [[]]
  | x :: xs =>
    if x = c then [] :: splitOnChar c xs
    else
      match splitOnChar c xs with
      | [] => [[x]]
      | t :: ts => (x :: t) :: ts

/-- Remove all trailing occurrences of `c` (Python `str.rstrip(c)`). -/
def rstripChar (c : Char) (s : Str) : Str :=
  (s.reverse.dropWhile (fun x => x = c)).reverse

/-- Split at the last occurrence of `c` (Python `str.rsplit(c, 1)` when `c`
occurs in `s`): the part before the last `c` and the part after it. -/
def rsplit1 (c : Char) (s : Str) : Str × Str :=
  (((s.reverse.dropWhile (fun x => x ≠ c)).drop 1).reverse,
   (s.reverse.takeWhile (fun x => x ≠ c)).reverse)

/-- Python `str.split(None, maxsplit)`: split on runs of whitespace,
discarding leading and trailing whitespace; after `maxsplit` splits the
remainder (leading whitespace stripped) is the final token. -/
def pySplit : ℕ → Str → List Str
  | n, s =>
    let s' := s.dropWhile isSpaceC
    if s'.isEmpty then []
    else
      match n with
      | 0 => [s']
      | n + 1 =>
        s'.takeWhile (fun c => !isSpaceC c) ::
          pySplit n (s'.dropWhile (fun c => !isSpaceC c))

/-- Substring containment, Python's `needle in haystack`. -/
def listContains (needle : Str) : Str → Bool
  | [] => needle.isEmpty
  | c :: t => needle.isPrefixOf (c :: t) || listContains needle t

/-- Single-character containment, Python's `c in s` for a one-character
pattern. -/
def hasChar (c : Char) (s : Str) : Bool := s.any (fun x => x = c)

/-- Python `int(s)` on the token shapes that can reach it here (whitespace
was already consumed by the column split): an optional sign followed by a
non-empty digit string; anything else raises `ValueError`, modelled as
`none`. -/
def parseIntPy (s : Str) : Option ℤ :=
  if s.head? = some '-' then
    if isDigits (s.drop 1) then some (-(valDigits (s.drop 1) : ℤ)) else none
  else if s.head? = some '+' then
    if isDigits (s.drop 1) then some (valDigits (s.drop 1) : ℤ) else none
  else if isDigits s then some (valDigits s : ℤ) else none

/-- Python `float(s)` on the decimal notations pstats emits (an optional
sign, digits, an optional point with digits); other spellings accepted by
`float` (exponents, `inf`, `nan`) never occur in profiler output and are
modelled as failures. The numeric value is exact (`ℚ`). -/
def parseFloat (s : Str) : Option ℚ :=
  let unsigned : Str → Option ℚ := fun u =>
    match splitOnChar '.' u with
    | [a] => if isDigits a then some (valDigits a : ℚ) else none
    | [a, b] =>
      if a.all isDigitC && b.all isDigitC && (!a.isEmpty || !b.isEmpty) then
        some ((valDigits a : ℚ) + (valDigits b : ℚ) / (10 : ℚ) ^ b.length)
      else none
    | _ => none
  match s with
  | '-' :: rest => (unsigned rest).map (fun q => -q)
  | '+' :: rest => unsigned rest
  | _ => unsigned s

/-- One row of profiling output (`FunctionStats` dataclass, lines 49-61). -/
structure FunctionStats where
  name : Str
  filename : Str
  line_number : ℕ
  total_calls : ℤ
  primitive_calls : ℤ
  total_time : ℚ
  cumulative_time : ℚ
  time_per_call : ℚ
  cumulative_per_call : ℚ
  percentage : ℚ
deriving DecidableEq

/-- The location-token parse of `_extract_hot_functions` (lines 216-230):
given the trailing `filename:lineno(function)` token, produce
`(filename, line_number, name)`. -/
def parseLoc (func_info : Str) : Str × ℕ × Str :=
  if hasChar ':' func_info && hasChar '(' func_info then
    let file_line := (splitOnChar '(' func_info).getD 0 []
    let func_name := rstripChar ')' ((splitOnChar '(' func_info).getD 1 [])
    if hasChar ':' file_line then
      let (filename, line_no) := rsplit1 ':' file_line
      (filename, if isDigits line_no then valDigits line_no else 0, func_name)
    else
      (file_line, 0, func_name)
  else
    (lit "unknown", 0, func_info)

/-- The call-count parse of `_extract_hot_functions` (lines 232-239):
`X` gives `(X, X)`, `P/T` gives `(primitive, total) = (P, T)`; any other
shape (a bad unpack or a bad `int`) raises and skips the row. -/
def parseNCalls (ncalls_str : Str) : Option (ℤ × ℤ) :=
  if hasChar '/' ncalls_str then
    match splitOnChar '/' ncalls_str with
    | [p, t] =>
      match parseIntPy p, parseIntPy t with
      | some primitive, some total => some (primitive, total)
      | _, _ => none
    | _ => none
  else
    (parseIntPy ncalls_str).map (fun n => (n, n))

/-- The per-line body of the parsing loop of `_extract_hot_functions`
(lines 203-259): split the line into at most six columns, convert the
numeric columns, parse the location token and the call-count field; any
conversion failure (`ValueError`) skips the row (`none`). -/
def parseRow (total_time : ℚ) (line : Str) : Option FunctionStats :=
  let parts := pySplit 5 line
  if parts.length < 6 then none
  else
    (parseFloat (parts.getD 1 [])).bind fun tottime =>
    (if parts.getD 2 [] = lit "0.000" then some 0
     else parseFloat (parts.getD 2 [])).bind fun tottime_percall =>
    (parseFloat (parts.getD 3 [])).bind fun cumtime =>
    (if parts.getD 4 [] = lit "0.000" then some 0
     else parseFloat (parts.getD 4 [])).bind fun cumtime_percall =>
    (parseNCalls (parts.getD 0 [])).bind fun pt =>
    let func_info := parts.getD 5 []
    let (filename, line_number, func_name) := parseLoc func_info
    let percentage := if total_time > 0 then cumtime / total_time * 100 else 0
    some
      { name := func_name
        filename := filename
        line_number := line_number
        total_calls := pt.2
        primitive_calls := pt.1
        total_time := tottime
        cumulative_time := cumtime
        time_per_call := tottime_percall
        cumulative_per_call := cumtime_percall
        percentage := percentage }

/-- Header detection of the parsing loop (line 196): a line containing
both `ncalls` and `tottime`. -/
def isHeaderLine (l : Str) : Bool :=
  listContains (lit "ncalls") l && listContains (lit "tottime") l

/-- The parsing loop of `_extract_hot_functions` (lines 193-259) over the
lines of the pstats dump, carrying the `parsing_stats` flag: header-like
lines set the flag and are skipped, lines before the first header are
skipped, remaining lines are parsed best-effort. -/
def extractLoop (total_time : ℚ) : Bool → List Str → List FunctionStats
  | _, [] => []
  | flag, l :: ls =>
    if isHeaderLine l then extractLoop total_time true ls
    else if !flag then extractLoop total_time flag ls
    else
      match parseRow total_time l with
      | some r => r :: extractLoop total_time flag ls
      | none => extractLoop total_time flag ls

/-- `_extract_hot_functions` (lines 177-261) on the lines of the captured
`print_stats` text (the code splits the captured stream on newlines and
runs the loop above with the flag initially unset). -/
def extractHotFunctions (total_time : ℚ) (lines : List Str) : List FunctionStats :=
  extractLoop total_time false lines

/-- The records a list of post-header lines contributes: one per
non-header line that parses (used to state what the parser preserves). -/
def dataRows (total_time : ℚ) (lines : List Str) : List FunctionStats :=
  lines.filterMap (fun l => if isHeaderLine l then none else parseRow total_time l)

/-! ## Number formatting, as used in the report messages -/

/-- Decimal digits of a natural number, most significant first. -/
def natStr (n : ℕ) : Str := Nat.toDigits 10 n

/-- Python `str(n)` / `f"{n}"` for an int. -/
def intStr (n : ℤ) : Str :=
  (if n < 0 then ['-'] else []) ++ natStr n.natAbs

/-- Split a list into chunks of three (from the front). -/
def chunksOf3 : Str → List Str
  | [] => []
  | [a] => [[a]]
  | [a, b] => [[a, b]]
  | a :: b :: c :: rest => [a, b, c] :: chunksOf3 rest

/-- Insert thousands separators into a digit string (group in threes from
the right). -/
def commaGroup (ds : Str) : Str :=
  List.intercalate [','] (((chunksOf3 ds.reverse).map List.reverse).reverse)

/-- Python `f"{n:,}"` for an int: decimal digits with thousands
separators. -/
def fmtComma (n : ℤ) : Str :=
  (if n < 0 then ['-'] else []) ++ commaGroup (natStr n.natAbs)

/-- Python `f"{x:.prec f}"` on the exact rational value: fixed-point
rendering with `prec` digits after the point.  (CPython rounds the binary
double to nearest, ties-to-even; on exact rationals we round ties up.
The two can differ only at exact midpoints, which the theorems below
never depend on: the same `fmtFixed` appears on both the code side and
the spec side of every rendering equation.) -/
def fmtFixed (prec : ℕ) (q : ℚ) : Str :=
  let m : ℕ := (round (|q| * (10 : ℚ) ^ prec)).toNat
  let ip := m / 10 ^ prec
  let fp := m % 10 ^ prec
  let fracDigits := List.replicate (prec - (natStr fp).length) '0' ++ natStr fp
  (if q < 0 && m ≠ 0 then ['-'] else []) ++ natStr ip ++
    (if prec = 0 then [] else '.' :: fracDigits)

/-! ## Analyzer -/

/-- The bottleneck line rendered for a record (lines 270-272). -/
def bottleneckMsg (f : FunctionStats) : Str :=
  f.name ++ lit " (" ++ fmtFixed 1 f.percentage ++ lit "% of total time)"

/-- `_identify_bottlenecks` (lines 263-274): loop over the first 10
records appending a line for each with `percentage > 10.0`. -/
def identifyBottlenecks (hot_functions : List FunctionStats) : List Str :=
  (hot_functions.take 10).foldl
    (fun acc f => if f.percentage > 10 then acc ++ [bottleneckMsg f] else acc) []

/-- The bottleneck list as §4.2 of the spec words it: among the first 10
records, exactly those with `percentOfTotal > 10.0`, each rendered as the
bottleneck line, in order. -/
def bottlenecksSpec (hot_functions : List FunctionStats) : List Str :=
  ((hot_functions.take 10).filter (fun f => f.percentage > 10)).map bottleneckMsg

/-- Recommendation line of rule 1 (lines 297-299); note the `:,`
thousands-separated count. -/
def msgRec1 (f : FunctionStats) : Str :=
  lit "Consider optimizing " ++ f.name ++ lit ": called " ++
    fmtComma f.total_calls ++ lit " times"

/-- Recommendation line of rule 2 (lines 304-305). -/
def msgRec2 (f : FunctionStats) : Str :=
  lit "Hot path detected in " ++ f.name ++ lit ": " ++
    fmtFixed 3 f.cumulative_time ++ lit "s (" ++ fmtFixed 1 f.percentage ++ lit "%)"

/-- Recommendation line of rule 3 (lines 311-312). -/
def msgRec3 (f : FunctionStats) : Str :=
  lit "Recursive function " ++ f.name ++ lit ": " ++ intStr f.total_calls ++
    lit " calls (" ++ intStr f.primitive_calls ++ lit " primitive)"

/-- `_generate_recommendations` (lines 286-318): the empty-list sentinel,
then three append loops (first 5 by call count, first 5 by cumulative
time against `total_time * 0.2`, first 10 by recursion signal), then the
no-findings sentinel.  The float literal `0.2` is modelled as `1/5`. -/
def generateRecommendations (hot_functions : List FunctionStats)
    (total_time : ℚ) : List Str :=
  if hot_functions.isEmpty then
    [lit "No significant performance issues detected."]
  else
    let recs := (hot_functions.take 5).foldl
      (fun acc f => if f.total_calls > 10000 then acc ++ [msgRec1 f] else acc) []
    let recs := (hot_functions.take 5).foldl
      (fun acc f =>
        if f.cumulative_time > total_time * (1 / 5) then acc ++ [msgRec2 f] else acc)
      recs
    let recs := (hot_functions.take 10).foldl
      (fun acc f =>
        if f.primitive_calls < f.total_calls then acc ++ [msgRec3 f] else acc)
      recs
    if recs.isEmpty then
      [lit "Performance looks good! No major bottlenecks detected."]
    else recs

/-- The recommendation list as §4.2 of the spec words it (with rule 1's
count rendered as the code renders it, thousands-separated): the three
rules applied independently in the fixed order, all matching entries
included, with the two sentinel cases. -/
def recommendationsSpec (hot_functions : List FunctionStats)
    (total_time : ℚ) : List Str :=
  if hot_functions = [] then
    [lit "No significant performance issues detected."]
  else
    let r1 := ((hot_functions.take 5).filter
      (fun f => f.total_calls > 10000)).map msgRec1
    let r2 := ((hot_functions.take 5).filter
      (fun f => f.cumulative_time > total_time * (1 / 5))).map msgRec2
    let r3 := ((hot_functions.take 10).filter
      (fun f => f.primitive_calls < f.total_calls)).map msgRec3
    if r1 ++ r2 ++ r3 = [] then
      [lit "Performance looks good! No major bottlenecks detected."]
    else r1 ++ r2 ++ r3

/-! ## Comparator -/

/-- What `compare_reports` reads out of a loaded JSON report: the two
totals (JSON numbers) and the bottleneck strings (`.get('bottlenecks',
[]`) supplies `[]` when the key is absent). -/
structure LoadedReport where
  total_time : ℚ
  total_calls : ℚ
  bottlenecks : List Str
deriving DecidableEq

/-- The comparison dictionary built by `compare_reports` (lines 519-529).
The two bottleneck differences are Python `set` differences; `list(...)`
of a set enumerates it in an unspecified order, so they are modelled as
finite sets. -/
structure Comparison where
  baseline_time : ℚ
  current_time : ℚ
  time_change_percent : ℚ
  baseline_calls : ℚ
  current_calls : ℚ
  calls_change_percent : ℚ
  new_bottlenecks : Finset Str
  fixed_bottlenecks : Finset Str
  regression_detected : Bool

/-- The computation of `compare_reports` (lines 503-529) once both
reports are loaded. -/
def compareReports (baseline current : LoadedReport) : Comparison :=
  let baseline_time := baseline.total_time
  let current_time := current.total_time
  let time_change :=
    if baseline_time > 0 then (current_time - baseline_time) / baseline_time * 100
    else 0
  let baseline_calls := baseline.total_calls
  let current_calls := current.total_calls
  let calls_change :=
    if baseline_calls > 0 then (current_calls - baseline_calls) / baseline_calls * 100
    else 0
  let baseline_bottlenecks := baseline.bottlenecks.toFinset
  let current_bottlenecks := current.bottlenecks.toFinset
  { baseline_time := baseline_time
    current_time := current_time
    time_change_percent := time_change
    baseline_calls := baseline_calls
    current_calls := current_calls
    calls_change_percent := calls_change
    new_bottlenecks := current_bottlenecks \ baseline_bottlenecks
    fixed_bottlenecks := baseline_bottlenecks \ current_bottlenecks
    regression_detected := decide (time_change > 10) || decide (calls_change > 20) }

/-- The two failure conditions of `compare_reports`: `FileNotFoundError`
(lines 493-496) and the load/shape failures (`json.load` or field access
raising, lines 498-511), which `main` surfaces separately from not-found. -/
inductive CompareError where
  | notFound
  | malformed
deriving DecidableEq

/-- `compare_reports` (lines 478-531) over an abstract file system
(`fs path = none` iff the file is absent) and an abstract loader
(`parse contents = none` iff the contents cannot be parsed into the
expected report shape — `json.load` plus the field accesses): both
existence checks run first, then baseline and current are loaded. -/
def compareFromFiles (fs : Str → Option Str) (parse : Str → Option LoadedReport)
    (baseline_path current_path : Str) : Except CompareError Comparison :=
  match fs baseline_path with
  | none => .error .notFound
  | some baseline_text =>
    match fs current_path with
    | none => .error .notFound
    | some current_text =>
      match parse baseline_text with
      | none => .error .malformed
      | some baseline =>
        match parse current_text with
        | none => .error .malformed
        | some current => .ok (compareReports baseline current)

/-! ## Report and its JSON form -/

/-- The call-tree summary built by `_extract_call_tree` (lines 276-284). -/
structure CallTree where
  total_calls : ℤ
  primitive_calls : ℤ
  total_functions : ℤ
deriving DecidableEq

/-- `ProfileReport` (lines 64-74); `call_tree` always holds the
three-field summary the pipeline builds. -/
structure ProfileReport where
  script_path : Str
  total_time : ℚ
  total_calls : ℤ
  hot_functions : List FunctionStats
  bottlenecks : List Str
  call_tree : CallTree
  recommendations : List Str
  timestamp : Str
deriving DecidableEq

/-- JSON documents (the fragment `save_report` emits: strings, numbers,
arrays, objects).  A Python int and the exact value of a Python float are
both JSON numbers, modelled as `ℚ`. -/
inductive Json where
  | str : Str → Json
  | num : ℚ → Json
  | arr : List Json → Json
  | obj : List (Str × Json) → Json

/-- `dataclasses.asdict` on a `FunctionStats` (line 401), in dataclass
field order. -/
def functionStatsToJson (f : FunctionStats) : Json :=
  .obj
    [ (lit "name", .str f.name)
    , (lit "filename", .str f.filename)
    , (lit "line_number", .num f.line_number)
    , (lit "total_calls", .num f.total_calls)
    , (lit "primitive_calls", .num f.primitive_calls)
    , (lit "total_time", .num f.total_time)
    , (lit "cumulative_time", .num f.cumulative_time)
    , (lit "time_per_call", .num f.time_per_call)
    , (lit "cumulative_per_call", .num f.cumulative_per_call)
    , (lit "percentage", .num f.percentage) ]

/-- The `report_dict` written by `save_report` in JSON format
(lines 397-406): every field of the report, with the full
`hot_functions` list. -/
def reportToJson (r : ProfileReport) : Json :=
  .obj
    [ (lit "script_path", .str r.script_path)
    , (lit "total_time", .num r.total_time)
    , (lit "total_calls", .num r.total_calls)
    , (lit "hot_functions", .arr (r.hot_functions.map functionStatsToJson))
    , (lit "bottlenecks", .arr (r.bottlenecks.map .str))
    , (lit "call_tree", .obj
        [ (lit "total_calls", .num r.call_tree.total_calls)
        , (lit "primitive_calls", .num r.call_tree.primitive_calls)
        , (lit "total_functions", .num r.call_tree.total_functions) ])
    , (lit "recommendations", .arr (r.recommendations.map .str))
    , (lit "timestamp", .str r.timestamp) ]

/-- First value bound to key `k` in a JSON object's field list
(dictionary lookup). -/
def findField (k : Str) : List (Str × Json) → Option Json
  | [] => none
  | (k', v) :: rest => if k' = k then some v else findField k rest

/-- Field lookup on a JSON value. -/
def getField (j : Json) (k : Str) : Option Json :=
  match j with
  | .obj kvs => findField k kvs
  | _ => none

/-- A JSON number read back as a Python int (an integral number). -/
def asInt (j : Json) : Option ℤ :=
  match j with
  | .num q => if q.den = 1 then some q.num else none
  | _ => none

/-- A JSON number read back as a numeric value. -/
def asNum (j : Json) : Option ℚ :=
  match j with
  | .num q => some q
  | _ => none

/-- A JSON string read back. -/
def asStr (j : Json) : Option Str :=
  match j with
  | .str s => some s
  | _ => none

/-- Decode every element of a JSON array, failing if any element fails. -/
def decodeList (dec : Json → Option α) : List Json → Option (List α)
  | [] => some []
  | j :: js =>
    match dec j with
    | none => none
    | some a => (decodeList dec js).map (fun rest => a :: rest)

/-- Modelled from the spec: the persisted JSON report schema of §6 gives
each hot-function entry ten named fields; the repository itself never
reconstructs a `FunctionStats` from JSON (the comparator reads only the
totals and bottlenecks), so the reader is the schema read literally. -/
def jsonToFunctionStats (j : Json) : Option FunctionStats :=
  match getField j (lit "name") with
  | none => none
  | some jn =>
  match asStr jn, (getField j (lit "filename")).bind asStr,
        (getField j (lit "line_number")).bind asInt,
        (getField j (lit "total_calls")).bind asInt,
        (getField j (lit "primitive_calls")).bind asInt,
        (getField j (lit "total_time")).bind asNum,
        (getField j (lit "cumulative_time")).bind asNum with
  | some name, some filename, some line_number, some total_calls,
      some primitive_calls, some total_time, some cumulative_time =>
    match (getField j (lit "time_per_call")).bind asNum,
          (getField j (lit "cumulative_per_call")).bind asNum,
          (getField j (lit "percentage")).bind asNum with
    | some time_per_call, some cumulative_per_call, some percentage =>
      if 0 ≤ line_number then
        some
          { name := name
            filename := filename
            line_number := line_number.toNat
            total_calls := total_calls
            primitive_calls := primitive_calls
            total_time := total_time
            cumulative_time := cumulative_time
            time_per_call := time_per_call
            cumulative_per_call := cumulative_per_call
            percentage := percentage }
      else none
    | _, _, _ => none
  | _, _, _, _, _, _, _ => none

/-- Modelled from the spec: the `call_tree` object of the §6 schema. -/
def jsonToCallTree (j : Json) : Option CallTree :=
  match (getField j (lit "total_calls")).bind asInt,
        (getField j (lit "primitive_calls")).bind asInt,
        (getField j (lit "total_functions")).bind asInt with
  | some total_calls, some primitive_calls, some total_functions =>
    some
      { total_calls := total_calls
        primitive_calls := primitive_calls
        total_functions := total_functions }
  | _, _, _ => none

/-- Modelled from the spec: reading a persisted report back by the §6
schema (field names and nesting exactly as written); the repository has
no such loader — `compare_reports` only projects three fields — so the
round-trip property is stated against the schema read literally. -/
def jsonToReport (j : Json) : Option ProfileReport :=
  match (getField j (lit "script_path")).bind asStr,
        (getField j (lit "total_time")).bind asNum,
        (getField j (lit "total_calls")).bind asInt,
        getField j (lit "hot_functions"),
        getField j (lit "bottlenecks"),
        (getField j (lit "call_tree")).bind jsonToCallTree,
        getField j (lit "recommendations"),
        (getField j (lit "timestamp")).bind asStr with
  | some script_path, some total_time, some total_calls, some (.arr hfJs),
      some (.arr btJs), some call_tree, some (.arr rcJs), some timestamp =>
    match decodeList jsonToFunctionStats hfJs, decodeList asStr btJs,
          decodeList asStr rcJs with
    | some hot_functions, some bottlenecks, some recommendations =>
      some
        { script_path := script_path
          total_time := total_time
          total_calls := total_calls
          hot_functions := hot_functions
          bottlenecks := bottlenecks
          call_tree := call_tree
          recommendations := recommendations
          timestamp := timestamp }
    | _, _, _ => none
  | _, _, _, _, _, _, _, _ => none

/-! ## The `sys.argv` discipline of `profile` -/

/-- The failure modes of `profile` that are visible at its boundary. -/
inductive ProfileError where
  | notFound
  | runtimeError
deriving DecidableEq

/-- The `sys.argv` discipline of `profile` (lines 109-136): the missing-
script check happens before `sys.argv` is touched; otherwise the old
value is saved, `sys.argv` is set to the script path followed by the
script's arguments, the subject runs (it sees — and may itself reassign —
`sys.argv`, and may fail, which `profile` re-raises as a
`RuntimeError`), and the `finally` block restores the saved value on
both exits.  `subject argv = (argv', failed)` abstracts executing the
compiled script: `argv'` is the global `sys.argv` when it finishes or
raises, `failed` whether it raised. -/
def profileArgvFinal (script_exists : Bool) (script_path : Str)
    (script_args : List Str) (subject : List Str → List Str × Bool)
    (argv0 : List Str) : List Str × Option ProfileError :=
  if !script_exists then (argv0, some .notFound)
  else
    let old_argv := argv0
    let argv_for_script := script_path :: script_args
    let run := subject argv_for_script
    let failed := run.2
    -- finally: sys.argv = old_argv (line 136), whatever `run.1` left there
    let argv_final := old_argv
    (argv_final, if failed then some .runtimeError else none)

/-! ## Concrete instances used to exercise the theorems -/

/-- A pstats header line (contains both column labels). -/
def exHeader : Str :=
  lit "   ncalls  tottime  percall  cumtime  percall filename:lineno(function)"

/-- A well-formed data row whose call-count field is `5/3`: the first
component exceeds the second. -/
def exBadLine : Str := lit "5/3 0.100 0.020 0.300 0.060 f.py:10(g)"

/-- A data row whose call-count field is `12/34`. -/
def exPTLine : Str := lit "12/34 0.100 0.000 0.300 0.000 f.py:10(g)"

/-- A record called 10001 times and triggering no other rule. -/
def exManyCalls : FunctionStats :=
  { name := lit "f", filename := lit "f.py", line_number := 1
    total_calls := 10001, primitive_calls := 10001
    total_time := 0, cumulative_time := 0
    time_per_call := 0, cumulative_per_call := 0, percentage := 0 }

/-- A record sitting exactly on the 10% bottleneck threshold. -/
def exTenPercent : FunctionStats :=
  { name := lit "f", filename := lit "f.py", line_number := 1
    total_calls := 1, primitive_calls := 1
    total_time := 1 / 10, cumulative_time := 1 / 10
    time_per_call := 1 / 10, cumulative_per_call := 1 / 10, percentage := 10 }

/-- The spec's comparison scenario: baseline totals 1.0s / 100 calls. -/
def exBaseline : LoadedReport :=
  { total_time := 1, total_calls := 100, bottlenecks := [] }

/-- The spec's comparison scenario: current totals 2.5s / 150 calls. -/
def exCurrent : LoadedReport :=
  { total_time := 5 / 2, total_calls := 150, bottlenecks := [] }

/-- A non-header preamble line of a pstats dump. -/
def exPreLine : Str := lit "         250 function calls in 0.600 seconds"

/-- A data row of a pstats dump. -/
def exRow1 : Str := lit "        2    0.100    0.050    0.500    0.250 a.py:3(f)"

/-- A pstats dump as `print_stats` emits it: preamble, header, the data
rows, then trailing blank lines. -/
def exDump : List Str := [exPreLine, exHeader, exRow1, [], []]

/-! ## Helper lemmas about the string primitives -/

theorem hasChar_iff_mem {c : Char} {s : Str} : hasChar c s = true ↔ c ∈ s := by
  simp [hasChar, List.any_eq_true]

theorem hasChar_eq_false_iff {c : Char} {s : Str} :
    hasChar c s = false ↔ c ∉ s := by
  rw [← Bool.not_eq_true, not_iff_not]; exact hasChar_iff_mem

theorem not_mem_of_digits {c : Char} {s : Str} (hc : isDigitC c = false)
    (h : isDigits s = true) : c ∉ s := by
  intro hm
  unfold isDigits at h
  simp only [Bool.and_eq_true, List.all_eq_true] at h
  have := h.2 c hm
  rw [hc] at this
  cases this

theorem splitOnChar_eq_single {c : Char} {a : Str} (h : c ∉ a) :
    splitOnChar c a = [a] := by
  induction a with
  | nil => rfl
  | cons x xs ih =>
    have hx : ¬ x = c := fun he => h (he ▸ List.mem_cons_self x xs)
    have hxs : c ∉ xs := fun hm => h (List.mem_cons_of_mem _ hm)
    simp only [splitOnChar, if_neg hx, ih hxs]

theorem splitOnChar_append {c : Char} {a : Str} (b : Str) (h : c ∉ a) :
    splitOnChar c (a ++ c :: b) = a :: splitOnChar c b := by
  induction a with
  | nil => simp [splitOnChar]
  | cons x xs ih =>
    have hx : ¬ x = c := fun he => h (he ▸ List.mem_cons_self x xs)
    have hxs : c ∉ xs := fun hm => h (List.mem_cons_of_mem _ hm)
    simp only [List.cons_append, splitOnChar, if_neg hx, List.append_eq, ih hxs]

theorem dropWhile_eq_self_of_all {p : Char → Bool} {l : Str}
    (h : ∀ x ∈ l, p x = false) : l.dropWhile p = l := by
  cases l with
  | nil => rfl
  | cons x xs => simp [List.dropWhile_cons, h x (List.mem_cons_self x xs)]

theorem takeWhile_append_stop {p : Char → Bool} {xs : Str} (y : Char) (ys : Str)
    (hxs : ∀ x ∈ xs, p x = true) (hy : p y = false) :
    (xs ++ y :: ys).takeWhile p = xs := by
  induction xs with
  | nil => simp [List.takeWhile_cons, hy]
  | cons x t ih =>
    have hx := hxs x (List.mem_cons_self x t)
    simp only [List.cons_append, List.takeWhile_cons, hx, if_true]
    rw [ih (fun a ha => hxs a (List.mem_cons_of_mem _ ha))]

theorem dropWhile_append_stop {p : Char → Bool} {xs : Str} (y : Char) (ys : Str)
    (hxs : ∀ x ∈ xs, p x = true) (hy : p y = false) :
    (xs ++ y :: ys).dropWhile p = y :: ys := by
  induction xs with
  | nil => simp [List.dropWhile_cons, hy]
  | cons x t ih =>
    have hx := hxs x (List.mem_cons_self x t)
    simp only [List.cons_append, List.dropWhile_cons, hx, if_true]
    exact ih (fun a ha => hxs a (List.mem_cons_of_mem _ ha))

theorem rsplit1_eq {c : Char} (a b : Str) (h : c ∉ b) :
    rsplit1 c (a ++ c :: b) = (a, b) := by
  have hrev : (a ++ c :: b).reverse = b.reverse ++ c :: a.reverse := by
    simp [List.reverse_append]
  have hall : ∀ x ∈ b.reverse, (decide (x ≠ c)) = true := by
    intro x hx
    simp only [decide_eq_true_eq]
    exact fun he => h (he ▸ (List.mem_reverse.mp hx))
  have hcc : (decide (c ≠ c)) = false := by simp
  unfold rsplit1
  rw [hrev, takeWhile_append_stop c a.reverse hall hcc,
      dropWhile_append_stop c a.reverse hall hcc]
  simp

theorem rstripChar_eq {c : Char} (a : Str) (h : c ∉ a) :
    rstripChar c (a ++ [c]) = a := by
  unfold rstripChar
  rw [List.reverse_append]
  have h1 : ([c].reverse ++ a.reverse).dropWhile (fun x => decide (x = c))
      = a.reverse.dropWhile (fun x => decide (x = c)) := by
    simp [List.dropWhile_cons]
  rw [h1, dropWhile_eq_self_of_all, List.reverse_reverse]
  intro x hx
  simp only [decide_eq_false_iff_not]
  exact fun he => h (he ▸ List.mem_reverse.mp hx)

theorem parseIntPy_digits {s : Str} (h : isDigits s = true) :
    parseIntPy s = some (valDigits s : ℤ) := by
  cases s with
  | nil => simp [isDigits] at h
  | cons x xs =>
    have hx : isDigitC x = true := by
      unfold isDigits at h
      simp only [Bool.and_eq_true, List.all_eq_true] at h
      exact h.2 x (List.mem_cons_self x xs)
    have hminus : x ≠ '-' := by rintro rfl; exact absurd hx (by decide)
    have hplus : x ≠ '+' := by rintro rfl; exact absurd hx (by decide)
    unfold parseIntPy
    simp [List.head?, hminus, hplus, h]

theorem parseNCalls_slash {ds1 ds2 : Str} (h1 : isDigits ds1 = true)
    (h2 : isDigits ds2 = true) :
    parseNCalls (ds1 ++ '/' :: ds2) =
      some ((valDigits ds1 : ℤ), (valDigits ds2 : ℤ)) := by
  have m1 : '/' ∉ ds1 := not_mem_of_digits (by decide) h1
  have m2 : '/' ∉ ds2 := not_mem_of_digits (by decide) h2
  have hmem : hasChar '/' (ds1 ++ '/' :: ds2) = true :=
    hasChar_iff_mem.mpr (List.mem_append_right _ (List.mem_cons_self _ _))
  unfold parseNCalls
  rw [if_pos hmem, splitOnChar_append ds2 m1, splitOnChar_eq_single m2]
  simp [parseIntPy_digits h1, parseIntPy_digits h2]

theorem parseNCalls_plain {ds : Str} (h : isDigits ds = true) :
    parseNCalls ds = some ((valDigits ds : ℤ), (valDigits ds : ℤ)) := by
  have m : '/' ∉ ds := not_mem_of_digits (by decide) h
  unfold parseNCalls
  rw [if_neg (by rw [hasChar_eq_false_iff.mpr m]; exact Bool.false_ne_true)]
  rw [parseIntPy_digits h]
  rfl

/-- Inversion of `parseRow`: a retained record carries exactly the pair
`parseNCalls` produced from the call-count field. -/
theorem parseRow_calls {T : ℚ} {line : Str} {r : FunctionStats}
    (h : parseRow T line = some r) :
    ∃ pt, parseNCalls ((pySplit 5 line).getD 0 []) = some pt ∧
      r.primitive_calls = pt.1 ∧ r.total_calls = pt.2 := by
  unfold parseRow at h
  by_cases hlen : (pySplit 5 line).length < 6
  · simp [hlen] at h
  · rw [if_neg hlen] at h
    simp only [Option.bind_eq_some] at h
    obtain ⟨tt, _, tp, _, ct, _, cp, _, pt, hpt, hrec⟩ := h
    have hx := Option.some.inj hrec
    exact ⟨pt, hpt, congrArg FunctionStats.primitive_calls hx.symm,
      congrArg FunctionStats.total_calls hx.symm⟩

/-- An append-inside-a-loop accumulation is a `filter`-then-`map`. -/
theorem foldl_append_eq_filter_map {α β : Type} (p : α → Prop) [DecidablePred p]
    (g : α → β) (l : List α) (acc : List β) :
    l.foldl (fun a x => if p x then a ++ [g x] else a) acc
      = acc ++ (l.filter (fun x => p x)).map g := by
  induction l generalizing acc with
  | nil => simp
  | cons x xs ih =>
    by_cases h : p x
    · simp [List.filter_cons, h, ih]
    · simp [List.filter_cons, h, ih]

/-- Once the header has been seen, the parsing loop is a `filterMap` that
skips header-like lines and applies the row parser to the rest. -/
theorem extractLoop_true (T : ℚ) (ls : List Str) :
    extractLoop T true ls = dataRows T ls := by
  induction ls with
  | nil => rfl
  | cons l ls ih =>
    by_cases h : isHeaderLine l = true
    · simp [extractLoop, dataRows, List.filterMap_cons, h, ih]
    · rw [Bool.not_eq_true] at h
      cases hp : parseRow T l with
      | none => simp [extractLoop, dataRows, List.filterMap_cons, h, hp, ih]
      | some r => simp [extractLoop, dataRows, List.filterMap_cons, h, hp, ih]

/-- Before the header, every non-header line is skipped. -/
theorem extractLoop_false_prefix (T : ℚ) (pre rest : List Str)
    (h : ∀ l ∈ pre, isHeaderLine l = false) :
    extractLoop T false (pre ++ rest) = extractLoop T false rest := by
  induction pre with
  | nil => rfl
  | cons l ls ih =>
    have hl := h l (List.mem_cons_self l ls)
    simp only [List.cons_append, extractLoop, hl]
    exact ih (fun x hx => h x (List.mem_cons_of_mem _ hx))

/-- A successful substring test means the pattern's first character
occurs in the haystack. -/
theorem listContains_head_mem {c : Char} {cs l : Str}
    (h : listContains (c :: cs) l = true) : c ∈ l := by
  induction l with
  | nil => simp [listContains, List.isEmpty] at h
  | cons x t ih =>
    simp only [listContains, Bool.or_eq_true] at h
    rcases h with h1 | h2
    · simp only [List.isPrefixOf, Bool.and_eq_true] at h1
      have : c = x := eq_of_beq h1.1
      exact this ▸ List.mem_cons_self x t
    · exact List.mem_cons_of_mem _ (ih h2)

/-- A whitespace-only line is not a header line. -/
theorem isHeaderLine_blank {l : Str} (h : l.all isSpaceC = true) :
    isHeaderLine l = false := by
  by_contra hc
  rw [Bool.not_eq_false] at hc
  unfold isHeaderLine at hc
  rw [Bool.and_eq_true] at hc
  have h1 := hc.1
  have hn : lit "ncalls" = 'n' :: lit "calls" := rfl
  rw [hn] at h1
  have hm : 'n' ∈ l := listContains_head_mem h1
  have hsp := List.all_eq_true.mp h _ hm
  exact absurd hsp (by decide)

/-- A whitespace-only line splits into no columns at all. -/
theorem pySplit_blank {n : ℕ} {l : Str} (h : l.all isSpaceC = true) :
    pySplit n l = [] := by
  have hd : l.dropWhile isSpaceC = [] :=
    List.dropWhile_eq_nil_iff.mpr (fun x hx => List.all_eq_true.mp h x hx)
  rw [pySplit.eq_def]
  dsimp only
  rw [hd]
  simp

/-- A whitespace-only line is skipped by the row parser. -/
theorem parseRow_blank {T : ℚ} {l : Str} (h : l.all isSpaceC = true) :
    parseRow T l = none := by
  unfold parseRow
  rw [pySplit_blank h]
  simp

/-- Whitespace-only lines contribute no records. -/
theorem dataRows_blank {T : ℚ} {ls : List Str}
    (h : ∀ l ∈ ls, l.all isSpaceC = true) : dataRows T ls = [] := by
  induction ls with
  | nil => rfl
  | cons l t ih =>
    have hl := h l (List.mem_cons_self l t)
    have ih' := ih (fun x hx => h x (List.mem_cons_of_mem _ hx))
    unfold dataRows at ih' ⊢
    rw [List.filterMap_cons]
    simp [isHeaderLine_blank hl, parseRow_blank hl, ih']

/-- `dataRows` distributes over appending line blocks. -/
theorem dataRows_append (T : ℚ) (a b : List Str) :
    dataRows T (a ++ b) = dataRows T a ++ dataRows T b := by
  unfold dataRows
  rw [List.filterMap_append]

/-- A list with at most one element is vacuously pairwise-related. -/
theorem pairwise_of_length_le_one {α : Type} {R : α → α → Prop} {l : List α}
    (h : l.length ≤ 1) : l.Pairwise R := by
  match l with
  | [] => exact List.Pairwise.nil
  | [a] => exact List.pairwise_singleton R a
  | a :: b :: t => simp at h

/-- Decoding an encoded list element-wise recovers the list. -/
theorem decodeList_map {α : Type} {dec : Json → Option α} {enc : α → Json}
    (h : ∀ a, dec (enc a) = some a) (l : List α) :
    decodeList dec (l.map enc) = some l := by
  induction l with
  | nil => rfl
  | cons a as ih => simp [decodeList, h a, ih]

/-- The §6 schema reader inverts `asdict` on every hot-function entry. -/
theorem jsonToFunctionStats_roundtrip (f : FunctionStats) :
    jsonToFunctionStats (functionStatsToJson f) = some f := by
  simp +decide [jsonToFunctionStats, functionStatsToJson, getField, findField,
    asStr, asInt, asNum]

/-! ## The claims -/

/-- C1, counterexample: the row `5/3 …` is retained by the parser (after a
header line) with `primitive_calls = 5` and `total_calls = 3`, so a
retained record can violate `totalCalls ≥ primitiveCalls`: the parser
copies the two components of a `P/T` field without enforcing the
invariant. -/
theorem c1_invariant_counterexample :
    (pySplit 5 exBadLine).getD 0 [] = lit "5" ++ '/' :: lit "3" ∧
    ((extractHotFunctions 1 [exHeader, exBadLine]).map
      (fun r => (r.primitive_calls, r.total_calls))) = [((5:ℤ), (3:ℤ))] ∧
    ((extractHotFunctions 1 [exHeader, exBadLine]).map
      (fun r => decide (r.primitive_calls ≤ r.total_calls))) = [false] :=
  ⟨by decide, by decide, by decide⟩

/-- C1, amended: for every retained row whose call-count field has the
form `P/T`, the record has `primitiveCalls = P` and `totalCalls = T`
(and satisfies `totalCalls ≥ primitiveCalls` exactly when `P ≤ T` — the
parser does not enforce it); for every retained row whose field is a
plain numeral, `totalCalls = primitiveCalls`. -/
theorem c1_call_counts (T : ℚ) (line : Str) (r : FunctionStats)
    (hret : parseRow T line = some r) :
    (∀ ds1 ds2 : Str, isDigits ds1 = true → isDigits ds2 = true →
        (pySplit 5 line).getD 0 [] = ds1 ++ '/' :: ds2 →
        r.primitive_calls = (valDigits ds1 : ℤ) ∧
        r.total_calls = (valDigits ds2 : ℤ) ∧
        (valDigits ds1 ≤ valDigits ds2 → r.primitive_calls ≤ r.total_calls)) ∧
    (∀ ds : Str, isDigits ds = true → (pySplit 5 line).getD 0 [] = ds →
        r.total_calls = r.primitive_calls) := by
  obtain ⟨pt, hpt, hp, ht⟩ := parseRow_calls hret
  constructor
  · intro ds1 ds2 h1 h2 hfield
    rw [hfield, parseNCalls_slash h1 h2] at hpt
    have hpt2 := Option.some.inj hpt
    refine ⟨by rw [hp, ← hpt2], by rw [ht, ← hpt2], ?_⟩
    intro hle
    rw [hp, ht, ← hpt2]
    show (valDigits ds1 : ℤ) ≤ (valDigits ds2 : ℤ)
    exact_mod_cast hle
  · intro ds h hfield
    rw [hfield, parseNCalls_plain h] at hpt
    have hpt2 := Option.some.inj hpt
    rw [hp, ht, ← hpt2]

/-- C1, witness: on the concrete row `12/34 …` the theorem yields
`primitiveCalls = 12` and `totalCalls = 34`. -/
theorem c1_call_counts_witness :
    ((parseRow 1 exPTLine).map (fun r => (r.primitive_calls, r.total_calls)))
      = some ((12:ℤ), (34:ℤ)) := by
  have hs : (parseRow 1 exPTLine).isSome = true := by decide
  obtain ⟨r, hr⟩ := Option.isSome_iff_exists.mp hs
  have h := (c1_call_counts 1 exPTLine r hr).1 (lit "12") (lit "34")
    (by decide) (by decide) (by decide)
  rw [hr]
  show some (r.primitive_calls, r.total_calls) = some ((12:ℤ), (34:ℤ))
  rw [h.1, h.2.1]
  decide

/-- C2: on loadable reports (whose totals are nonnegative, as the data
model guarantees), the comparator computes both percentage deltas by the
spec's formula with the zero-baseline guard yielding 0, and flags a
regression exactly when the time delta exceeds 10% or the call delta
exceeds 20%. -/
theorem c2_compare_formulas (b c : LoadedReport)
    (hbt : 0 ≤ b.total_time) (hbc : 0 ≤ b.total_calls) :
    ((compareReports b c).time_change_percent =
      if b.total_time = 0 then 0
      else (c.total_time - b.total_time) / b.total_time * 100) ∧
    ((compareReports b c).calls_change_percent =
      if b.total_calls = 0 then 0
      else (c.total_calls - b.total_calls) / b.total_calls * 100) ∧
    ((compareReports b c).regression_detected = true ↔
      (compareReports b c).time_change_percent > 10 ∨
        (compareReports b c).calls_change_percent > 20) := by
  refine ⟨?_, ?_, ?_⟩
  · simp only [compareReports]
    rcases lt_or_eq_of_le hbt with h | h
    · rw [if_pos h, if_neg (ne_of_gt h)]
    · rw [if_neg (by rw [← h]; exact lt_irrefl 0), if_pos h.symm]
  · simp only [compareReports]
    rcases lt_or_eq_of_le hbc with h | h
    · rw [if_pos h, if_neg (ne_of_gt h)]
    · rw [if_neg (by rw [← h]; exact lt_irrefl 0), if_pos h.symm]
  · simp only [compareReports, Bool.or_eq_true, decide_eq_true_eq]

/-- C2, witness: the spec's scenario (baseline 1.0s/100 calls, current
2.5s/150 calls) gives +150% time, +50% calls, regression detected. -/
theorem c2_compare_formulas_witness :
    (compareReports exBaseline exCurrent).time_change_percent = 150 ∧
    (compareReports exBaseline exCurrent).calls_change_percent = 50 ∧
    (compareReports exBaseline exCurrent).regression_detected = true := by
  obtain ⟨h1, h2, h3⟩ := c2_compare_formulas exBaseline exCurrent
    (by norm_num [exBaseline]) (by norm_num [exBaseline])
  have e1 : (compareReports exBaseline exCurrent).time_change_percent = 150 := by
    rw [h1]; norm_num [exBaseline, exCurrent]
  have e2 : (compareReports exBaseline exCurrent).calls_change_percent = 50 := by
    rw [h2]; norm_num [exBaseline, exCurrent]
  refine ⟨e1, e2, ?_⟩
  rw [h3]
  left
  rw [e1]
  norm_num

/-- C3, counterexample: a record called 10001 times produces the line
`Consider optimizing f: called 10,001 times` — the count is rendered
with a thousands separator (Python `{:,}`), not as the spec's plain
`{totalCalls}`; any count over the 10000 threshold contains one. -/
theorem c3_rule_one_counterexample :
    generateRecommendations [exManyCalls] 100
      = [lit "Consider optimizing f: called 10,001 times"] ∧
    lit "Consider optimizing f: called 10,001 times"
      ≠ lit "Consider optimizing f: called 10001 times" := by
  constructor
  · have h2 : ¬ ((100:ℚ) * 5⁻¹ < 0) := by norm_num
    simp +decide [generateRecommendations, exManyCalls, h2, msgRec1]
  · decide

/-- C3, amended: the recommendation generator applies the three rules
independently in the fixed order with all matching entries and the two
sentinel cases exactly as the spec states, except that rule 1 renders the
call count with thousands separators:
`Consider optimizing {name}: called {totalCalls:,} times`. -/
theorem c3_recommendations (hot_functions : List FunctionStats) (T : ℚ) :
    generateRecommendations hot_functions T = recommendationsSpec hot_functions T := by
  cases hot_functions with
  | nil => rfl
  | cons f fs =>
    simp only [generateRecommendations, recommendationsSpec]
    rw [foldl_append_eq_filter_map (fun x => x.total_calls > 10000) msgRec1,
        foldl_append_eq_filter_map (fun x => x.cumulative_time > T * (1 / 5)) msgRec2,
        foldl_append_eq_filter_map (fun x => x.primitive_calls < x.total_calls) msgRec3]
    simp [List.append_assoc, List.isEmpty_iff]

/-- C5: the bottleneck list is exactly the first-10 records with
`percentage > 10.0`, rendered in order as
`{name} ({percent:.1f}% of total time)`; a record at exactly 10.0 is
never reported. -/
theorem c5_bottlenecks :
    (∀ hot_functions, identifyBottlenecks hot_functions = bottlenecksSpec hot_functions) ∧
    (∀ f : FunctionStats, f.percentage = 10 → identifyBottlenecks [f] = []) := by
  constructor
  · intro hot
    unfold identifyBottlenecks bottlenecksSpec
    rw [foldl_append_eq_filter_map (fun f => f.percentage > 10) bottleneckMsg]
    simp
  · intro f hf
    unfold identifyBottlenecks
    simp [hf]

/-- C5, witness: a concrete record with `percentage = 10` yields no
bottleneck line. -/
theorem c5_bottlenecks_witness : identifyBottlenecks [exTenPercent] = [] :=
  c5_bottlenecks.2 exTenPercent rfl

/-- C6: given what `print_stats(20)` guarantees of the captured dump —
after the header line come at most 20 data rows in descending
cumulative-time order, followed only by blank (whitespace-only) trailing
lines — the parsed hot-function list has length ≤ 20 and is sorted
descending by `cumulative_time` (the parser preserves row order, emits
at most one record per row, and blank lines contribute nothing). -/
theorem c6_sorted_bounded (T : ℚ) (lines pre rows trailing : List Str)
    (hline : Str)
    (hsplit : lines = pre ++ hline :: (rows ++ trailing))
    (hheader : isHeaderLine hline = true)
    (hpre : ∀ l ∈ pre, isHeaderLine l = false)
    (hrows : rows.length ≤ 20)
    (htrail : ∀ l ∈ trailing, l.all isSpaceC = true)
    (hsorted : (dataRows T rows).Pairwise
      (fun a b => b.cumulative_time ≤ a.cumulative_time)) :
    (extractHotFunctions T lines).length ≤ 20 ∧
    (extractHotFunctions T lines).Pairwise
      (fun a b => b.cumulative_time ≤ a.cumulative_time) := by
  have he : extractHotFunctions T lines = dataRows T rows := by
    unfold extractHotFunctions
    rw [hsplit, extractLoop_false_prefix T pre _ hpre]
    simp only [extractLoop, hheader, if_true]
    rw [extractLoop_true T (rows ++ trailing), dataRows_append,
        dataRows_blank htrail, List.append_nil]
  rw [he]
  refine ⟨?_, hsorted⟩
  show (rows.filterMap _).length ≤ 20
  exact le_trans (List.length_filterMap_le _ _) hrows

/-- C6, witness: a concrete dump shaped like real `print_stats` output —
preamble, header, one data row, two trailing blank lines — satisfies the
hypotheses and the conclusion. -/
theorem c6_sorted_bounded_witness :
    (extractHotFunctions (6 / 10) exDump).length ≤ 20 ∧
    (extractHotFunctions (6 / 10) exDump).Pairwise
      (fun a b => b.cumulative_time ≤ a.cumulative_time) := by
  refine c6_sorted_bounded (6 / 10) exDump [exPreLine] [exRow1] [[], []]
    exHeader rfl (by decide) (by decide) (by decide) (by decide) ?_
  exact pairwise_of_length_le_one
    (le_trans (List.length_filterMap_le _ _) (by decide))

/-- C7: the JSON form of a report decodes (by the §6 schema, field names
and nesting exact) back to a field-for-field equal report, and its
`hot_functions` field carries the full list — one entry per record, not
a top-10 truncation. -/
theorem c7_json_roundtrip (r : ProfileReport) :
    jsonToReport (reportToJson r) = some r ∧
    getField (reportToJson r) (lit "hot_functions")
      = some (Json.arr (r.hot_functions.map functionStatsToJson)) ∧
    (r.hot_functions.map functionStatsToJson).length = r.hot_functions.length := by
  refine ⟨?_, ?_, by simp⟩
  · simp +decide [jsonToReport, reportToJson, getField, findField, asStr, asInt,
      asNum, jsonToCallTree, decodeList_map jsonToFunctionStats_roundtrip,
      decodeList_map (fun s => rfl : ∀ s : Str, asStr (Json.str s) = some s)]
  · simp +decide [reportToJson, getField, findField]

/-- C8: comparing a report against itself yields zero deltas, empty
bottleneck differences and no regression. -/
theorem c8_compare_self (R : LoadedReport) :
    (compareReports R R).time_change_percent = 0 ∧
    (compareReports R R).calls_change_percent = 0 ∧
    (compareReports R R).new_bottlenecks = ∅ ∧
    (compareReports R R).fixed_bottlenecks = ∅ ∧
    (compareReports R R).regression_detected = false := by
  have e1 : (if R.total_time > 0
      then (R.total_time - R.total_time) / R.total_time * 100 else 0) = (0:ℚ) := by
    by_cases h : R.total_time > 0
    · rw [if_pos h, sub_self, zero_div, zero_mul]
    · rw [if_neg h]
  have e2 : (if R.total_calls > 0
      then (R.total_calls - R.total_calls) / R.total_calls * 100 else 0) = (0:ℚ) := by
    by_cases h : R.total_calls > 0
    · rw [if_pos h, sub_self, zero_div, zero_mul]
    · rw [if_neg h]
  refine ⟨?_, ?_, ?_, ?_, ?_⟩
  · simp only [compareReports]; exact e1
  · simp only [compareReports]; exact e2
  · simp [compareReports]
  · simp [compareReports]
  · simp only [compareReports]
    rw [e1, e2, decide_eq_false (by norm_num : ¬ (0:ℚ) > 10),
        decide_eq_false (by norm_num : ¬ (0:ℚ) > 20)]
    rfl

/-- C9: the comparator fails with the not-found condition exactly when
either file is absent; it fails with the malformed condition — a distinct
condition — exactly when both files exist and at least one does not parse
into the expected shape; and it succeeds exactly when both exist and both
parse. -/
theorem c9_compare_error_conditions (fs : Str → Option Str)
    (parse : Str → Option LoadedReport) (bpath cpath : Str) :
    (compareFromFiles fs parse bpath cpath = .error .notFound ↔
      fs bpath = none ∨ fs cpath = none) ∧
    (compareFromFiles fs parse bpath cpath = .error .malformed ↔
      (∃ bt, fs bpath = some bt ∧ ∃ ct, fs cpath = some ct ∧
        (parse bt = none ∨ parse ct = none))) ∧
    ((∃ comp, compareFromFiles fs parse bpath cpath = .ok comp) ↔
      (∃ bt, fs bpath = some bt ∧ ∃ ct, fs cpath = some ct ∧
        ∃ b, parse bt = some b ∧ ∃ c, parse ct = some c)) := by
  unfold compareFromFiles
  cases hb : fs bpath with
  | none => simp [hb]
  | some bt =>
    cases hc : fs cpath with
    | none => simp [hb, hc]
    | some ct =>
      cases hpb : parse bt with
      | none => simp [hb, hc, hpb]
      | some b =>
        cases hpc : parse ct with
        | none => simp [hb, hc, hpb, hpc]
        | some c => simp [hb, hc, hpb, hpc]

/-- C10: `profile` leaves the global `sys.argv` at its pre-call value on
every exit — missing script, subject failure (the `finally` restore), or
normal completion — whatever the subject did to it. -/
theorem c10_argv_restored (script_exists : Bool) (script_path : Str)
    (script_args : List Str) (subject : List Str → List Str × Bool)
    (argv0 : List Str) :
    (profileArgvFinal script_exists script_path script_args subject argv0).1
      = argv0 := by
  unfold profileArgvFinal
  cases script_exists <;> simp

/-- C4, counterexample: the token `file(name)` contains no `:`; the
parser files it under `unknown` with the whole token as the name — not,
as claimed, under the part before `(`. -/
theorem c4_no_colon_counterexample :
    (':' ∉ lit "file(name)") ∧
    (parseLoc (lit "file(name)")).1 = lit "unknown" ∧
    (parseLoc (lit "file(name)")).1 ≠ lit "file" ∧
    (parseLoc (lit "file(name)")).2.1 = 0 := by
  decide

/-- C4, amended: a token `file:line(name)` is split into its three
components; when the token contains both `:` and `(` but the part before
the first `(` has no colon, that part becomes the file and line = 0; and
when the token lacks `:` or lacks `(`, the whole token becomes the name
with file `unknown` and line 0. -/
theorem c4_location :
    (∀ file lineDs name : Str,
        isDigits lineDs = true → '(' ∉ file → '(' ∉ name → ')' ∉ name →
        parseLoc (file ++ ':' :: lineDs ++ '(' :: name ++ [')'])
          = (file, valDigits lineDs, name)) ∧
    (∀ file rest : Str, '(' ∉ file → ':' ∉ file → ':' ∈ rest →
        (parseLoc (file ++ '(' :: rest)).1 = file ∧
          (parseLoc (file ++ '(' :: rest)).2.1 = 0) ∧
    (∀ tok : Str, ':' ∉ tok ∨ '(' ∉ tok →
        parseLoc tok = (lit "unknown", 0, tok)) := by
  refine ⟨?_, ?_, ?_⟩
  · intro file lineDs name hld hfile hname hname2
    have hassoc : file ++ ':' :: lineDs ++ '(' :: name ++ [')']
        = (file ++ ':' :: lineDs) ++ '(' :: (name ++ [')']) := by simp
    have hColon : hasChar ':' (file ++ ':' :: lineDs ++ '(' :: name ++ [')'])
        = true := by
      rw [hasChar_iff_mem]; simp
    have hParen : hasChar '(' (file ++ ':' :: lineDs ++ '(' :: name ++ [')'])
        = true := by
      rw [hasChar_iff_mem]; simp
    have hnotin1 : '(' ∉ file ++ ':' :: lineDs := by
      intro hm
      rcases List.mem_append.mp hm with h | h
      · exact hfile h
      · rcases List.mem_cons.mp h with h | h
        · exact absurd h (by decide)
        · exact not_mem_of_digits (by decide) hld h
    have hnotin2 : '(' ∉ name ++ [')'] := by
      intro hm
      rcases List.mem_append.mp hm with h | h
      · exact hname h
      · rcases List.mem_cons.mp h with h | h
        · exact absurd h (by decide)
        · simp at h
    have hColon2 : hasChar ':' (file ++ ':' :: lineDs) = true := by
      rw [hasChar_iff_mem]; simp
    unfold parseLoc
    rw [if_pos (by rw [hColon, hParen]; rfl)]
    rw [hassoc, splitOnChar_append _ hnotin1, splitOnChar_eq_single hnotin2]
    simp only [List.getD_cons_zero, List.getD_cons_succ]
    rw [rstripChar_eq _ hname2, if_pos hColon2,
        rsplit1_eq file lineDs (not_mem_of_digits (by decide) hld), if_pos hld]
  · intro file rest hfile hfile2 hrest
    have hColon : hasChar ':' (file ++ '(' :: rest) = true := by
      rw [hasChar_iff_mem]; simp [hrest]
    have hParen : hasChar '(' (file ++ '(' :: rest) = true := by
      rw [hasChar_iff_mem]; simp
    have hnc : hasChar ':' file = false := hasChar_eq_false_iff.mpr hfile2
    unfold parseLoc
    rw [if_pos (by rw [hColon, hParen]; rfl)]
    rw [splitOnChar_append rest hfile]
    simp only [List.getD_cons_zero]
    rw [if_neg (by rw [hnc]; exact Bool.false_ne_true)]
    exact ⟨rfl, rfl⟩
  · intro tok hdis
    unfold parseLoc
    rw [if_neg ?_]
    · intro hcond
      rw [Bool.and_eq_true] at hcond
      rcases hdis with h | h
      · exact h (hasChar_iff_mem.mp hcond.1)
      · exact h (hasChar_iff_mem.mp hcond.2)

/-- C4, witness: the concrete token `f.py:10(g)` splits into its three
components. -/
theorem c4_location_witness :
    parseLoc (lit "f.py:10(g)") = (lit "f.py", 10, lit "g") := by
  have he : lit "f.py:10(g)"
      = lit "f.py" ++ ':' :: lit "10" ++ '(' :: lit "g" ++ [')'] := by decide
  rw [he, c4_location.1 (lit "f.py") (lit "10") (lit "g")
    (by decide) (by decide) (by decide) (by decide)]
  decide

end ProfileScope
